import Mathlib

/-!
# Verification of the gitness `executionStore` (store/database/execution.go slice)

Shallow embedding of the SQL-backed execution store: `Find`, `Create`, `Update`
(optimistic locking), `UpdateOptLock` (retry loop), `List`, `Count`, `Delete`.

The database backend is modelled as an explicit state (`DB`): a list of rows in
insertion order plus the next auto-generated `execution_id`.  Each store method
is translated from the Go source; the SQL statements are embedded by their
structure (referenced columns, SET assignments, WHERE predicates), and the
backend's execution of a statement is modelled explicitly, including the fact
that a backend rejects a statement whose SET clause is not a well-formed
comma-separated list of assignments.
-/

/-- One row of the `executions` table / the Go struct `types.Execution`.
Field per column of the source's `executionColumns` list (34 data columns plus
the generated `execution_id`).  Integer-valued columns are modelled as `Int`
(Go `int64`), text columns as `String`, `execution_debug` as `Bool`. -/
structure Execution where
  id : Int
  pipelineID : Int
  repoID : Int
  trigger : String
  number : Int
  parent : Int
  status : String
  error : String
  event : String
  action : String
  link : String
  timestamp : Int
  title : String
  message : String
  before : String
  after : String
  ref : String
  sourceRepo : String
  source : String
  target : String
  author : String
  authorName : String
  authorEmail : String
  authorAvatar : String
  sender : String
  params : String
  cron : String
  deploy : String
  deployID : Int
  debug : Bool
  started : Int
  finished : Int
  created : Int
  updated : Int
  version : Int
deriving DecidableEq

/-- The persistent state of the `executions` table: rows in insertion order and
the next value of the auto-generated `execution_id` key. -/
structure DB where
  rows : List Execution
  nextId : Int
deriving DecidableEq

/-- Errors produced by the store, mirroring the error values of the Go code:
`resourceNotFound` is `gitness_store.ErrResourceNotFound` (what
`database.ProcessSQLErrorf` returns for `sql.ErrNoRows`), `versionConflict` is
`gitness_store.ErrVersionConflict`, `internalSQL` is any other wrapped SQL
failure, and `user` stands for an arbitrary error produced by a caller-supplied
mutation function. -/
inductive StoreErr where
  | resourceNotFound
  | versionConflict
  | internalSQL (msg : String)
  | user (code : Int)
deriving DecidableEq

/-- The WHERE predicate shared by `Find` and `Delete`:
`execution_pipeline_id = $1 AND execution_number = $2`. -/
def execMatchesKey (pipelineID executionNum : Int) (r : Execution) : Bool :=
  r.pipelineID == pipelineID && r.number == executionNum

/-- `executionStore.Find`: `SELECT <columns> FROM executions WHERE
execution_pipeline_id = $1 AND execution_number = $2` via `db.GetContext`,
which yields the first row of the result set (store order = insertion order)
or `sql.ErrNoRows`, mapped by `ProcessSQLErrorf` to `ErrResourceNotFound`. -/
def Find (db : DB) (pipelineID executionNum : Int) : Except StoreErr Execution :=
  match db.rows.find? (execMatchesKey pipelineID executionNum) with
  | some r => .ok r
  | none => .error .resourceNotFound

/-- `executionStore.Create`: `INSERT INTO executions (<34 data columns>)
VALUES (<the record's fields>) RETURNING execution_id`.  All 34 data columns
are bound from the caller's record as given (the store sets no timestamp and
no version here); the generated `execution_id` is scanned back into the
caller's record (`Scan(&execution.ID)`).  Returns
(error, new state, caller's record after the call). -/
def Create (db : DB) (e : Execution) : Except StoreErr Unit × DB × Execution :=
  let inserted := { e with id := db.nextId }
  (.ok (), { rows := db.rows ++ [inserted], nextId := db.nextId + 1 }, inserted)

/-- The columns assigned by the SET clause of `executionUpdateStmt`
(in source order). -/
inductive UpdateSetColumn where
  | status
  | error
  | event
  | started
  | finished
  | updated
  | version
deriving DecidableEq

/-- The SET clause of the source's `executionUpdateStmt`, one entry per
comma-separated slot of the statement text.  The text reads

  `SET ,execution_status = :execution_status ,execution_error = ... ,execution_version = :execution_version`

i.e. a comma follows `SET` immediately, so the slot before the first comma is
blank; it is encoded as `none`, and each real assignment
`execution_X = :execution_X` as `some .X`. -/
def executionUpdateSetSlots : List (Option UpdateSetColumn) :=
  [none, some .status, some .error, some .event, some .started, some .finished,
   some .updated, some .version]

/-- A SQL engine accepts a SET clause only if it is a nonempty comma-separated
list of assignments with no blank slot (grammar: `SET assignment (, assignment)*`). -/
def sqlSetClauseAccepted (slots : List (Option UpdateSetColumn)) : Bool :=
  !slots.isEmpty && slots.all (fun s => s.isSome)

/-- The row transformation described by the assignments of the SET clause:
each assigned column receives the bound parameter of the same name, i.e. the
corresponding field of the bound record. -/
def applyExecutionUpdateSet (bound row : Execution) : Execution :=
  { row with
    status := bound.status
    error := bound.error
    event := bound.event
    started := bound.started
    finished := bound.finished
    updated := bound.updated
    version := bound.version }

/-- The WHERE predicate of `executionUpdateStmt`:
`execution_id = :execution_id AND execution_version = :execution_version - 1`,
with both parameters bound from the (already incremented) local copy. -/
def executionUpdateWhere (bound row : Execution) : Bool :=
  row.id == bound.id && row.version == bound.version - 1

/-- Diagnostic the backend reports when rejecting the malformed statement. -/
def updateStmtRejectMsg : String := "malformed SET clause in update statement"

/-- The backend (`db.ExecContext`) running `executionUpdateStmt` with the named
parameters bound from `bound`: if the statement parses (its SET clause is a
well-formed assignment list), every row satisfying the WHERE predicate is
rewritten by the SET assignments and the number of affected rows is reported;
otherwise the whole statement is rejected and nothing is written. -/
def dbExecExecutionUpdate (db : DB) (bound : Execution) : Except String (DB × Nat) :=
  if sqlSetClauseAccepted executionUpdateSetSlots then
    .ok ({ db with rows := db.rows.map fun r =>
             if executionUpdateWhere bound r then applyExecutionUpdateSet bound r else r },
         db.rows.countP (executionUpdateWhere bound))
  else
    .error updateStmtRejectMsg

/-- `executionStore.Update`, parameterized by the backend that executes the
update statement.  Mirrors the Go body: copy the record, increment
`Version`, stamp `Updated` with the current time, execute the statement;
a backend failure is returned wrapped (`internalSQL`); zero affected rows is
`ErrVersionConflict`; on success only `Version` and `Updated` are written back
onto the caller's record.  Returns (error, new state, caller's record after
the call). -/
def updateGo (exec : DB → Execution → Except String (DB × Nat)) (now : Int)
    (db : DB) (e : Execution) : Except StoreErr Unit × DB × Execution :=
  let execution := { e with version := e.version + 1, updated := now }
  match exec db execution with
  | .error msg => (.error (.internalSQL msg), db, e)
  | .ok (db', count) =>
    if count == 0 then (.error .versionConflict, db', e)
    else (.ok (), db', { e with version := execution.version, updated := execution.updated })

/-- `executionStore.Update` with the concrete statement `executionUpdateStmt`.
`now` is the value of `time.Now().UnixMilli()` at the call. -/
def Update (now : Int) (db : DB) (e : Execution) : Except StoreErr Unit × DB × Execution :=
  updateGo dbExecExecutionUpdate now db e

/-- `executionStore.UpdateOptLock`, parameterized by the store operations it
invokes (`s.Update` indexed by the attempt number, since each attempt stamps a
fresh `time.Now()`, and `s.Find`).  Mirrors the Go loop: copy the record, apply
`mutateFn` to the copy (abort on its error), attempt `update`; on success
return the committed copy; on `ErrVersionConflict` re-read via `find` (abort on
its error) and restart from the fresh snapshot.  The Go loop is unbounded;
it is modelled with explicit fuel, `none` meaning the loop is still running
after `fuel` iterations.  Returns (outcome, final state). -/
def updateOptLockGo
    (update : Nat → DB → Execution → Except StoreErr Unit × DB × Execution)
    (find : DB → Int → Int → Except StoreErr Execution)
    (mutateFn : Execution → Except StoreErr Execution) :
    Nat → Nat → DB → Execution → Option (Except StoreErr Execution) × DB
  | _, 0, db, _ => (none, db)
  | k, fuel + 1, db, execution =>
    match mutateFn execution with
    | .error err => (some (.error err), db)
    | .ok dup =>
      match update k db dup with
      | (.ok (), db1, dup') => (some (.ok dup'), db1)
      | (.error err, db1, _) =>
        if err = .versionConflict then
          match find db1 execution.pipelineID execution.number with
          | .error ferr => (some (.error ferr), db1)
          | .ok e2 => updateOptLockGo update find mutateFn (k + 1) fuel db1 e2
        else
          (some (.error err), db1)

/-- `executionStore.UpdateOptLock` with the concrete `Update` and `Find`.
`clock k` is the `time.Now().UnixMilli()` observed by the `Update` call of
attempt `k`. -/
def UpdateOptLock (clock : Nat → Int) (fuel : Nat) (db : DB) (e : Execution)
    (mutateFn : Execution → Except StoreErr Execution) :
    Option (Except StoreErr Execution) × DB :=
  updateOptLockGo (fun k => Update (clock k)) Find mutateFn 0 fuel db e

/-- Modelled from the spec: `database.Limit` (helper of the gitness
`store/database` package, not under src/) maps the pagination size to
`LIMIT size`. -/
def sqlLimit (size : Int) : Nat := size.toNat

/-- Modelled from the spec: `database.Offset` (helper of the gitness
`store/database` package, not under src/) maps the pagination descriptor to
`OFFSET (page-1)*size`. -/
def sqlOffset (page size : Int) : Nat := ((page - 1) * size).toNat

/-- `executionStore.List`: `SELECT <columns> FROM executions WHERE
execution_pipeline_id = ? LIMIT size OFFSET (page-1)*size` (no ORDER BY;
store-defined order = insertion order).  The filter argument is passed through
`fmt.Sprint`, which does not change the compared value. -/
def ListExec (db : DB) (pipelineID : Int) (page size : Int) :
    Except StoreErr (List Execution) :=
  .ok (((db.rows.filter fun r => r.pipelineID == pipelineID).drop
          (sqlOffset page size)).take (sqlLimit size))

/-- `executionStore.Count`: `SELECT count(*) FROM executions WHERE
execution_pipeline_id = ?`. -/
def Count (db : DB) (pipelineID : Int) : Except StoreErr Int :=
  .ok ((db.rows.countP fun r => r.pipelineID == pipelineID) : Nat)

/-- `executionStore.Delete`: `DELETE FROM executions WHERE
execution_pipeline_id = $1 AND execution_number = $2`.  The Go code discards
the affected-row count (`if _, err := db.ExecContext(...)`), so a delete that
matches no row is not an error. -/
def Delete (db : DB) (pipelineID executionNum : Int) : Except StoreErr Unit × DB :=
  (.ok (), { db with rows := db.rows.filter fun r => !execMatchesKey pipelineID executionNum r })

/-- One state-changing store call (read-only calls `Find`, `List`, `Count`
never change the state). -/
inductive StoreOp where
  | createOp (e : Execution)
  | updateOp (now : Int) (e : Execution)
  | updateOptLockOp (clock : Nat → Int) (fuel : Nat) (e : Execution)
      (mutateFn : Execution → Except StoreErr Execution)
  | deleteOp (pipelineID executionNum : Int)

/-- The state after one store call. -/
def applyOp (db : DB) : StoreOp → DB
  | .createOp e => (Create db e).2.1
  | .updateOp now e => (Update now db e).2.1
  | .updateOptLockOp clock fuel e mutateFn => (UpdateOptLock clock fuel db e mutateFn).2
  | .deleteOp p n => (Delete db p n).2

/-- The state after a sequence of store calls. -/
def applyOps (db : DB) (ops : List StoreOp) : DB := ops.foldl applyOp db

/-- The persisted row whose generated key `execution_id` is `i`. -/
def findRowById (db : DB) (i : Int) : Option Execution :=
  db.rows.find? (fun r => r.id == i)

/-- Well-formedness of the table state: the generated keys are pairwise
distinct and all below the generator's next value. -/
def wfDB (db : DB) : Prop :=
  (db.rows.map Execution.id).Nodup ∧ ∀ r ∈ db.rows, r.id < db.nextId

instance (db : DB) : Decidable (wfDB db) := by
  unfold wfDB
  infer_instance

/-- A record with every field zeroed, used for concrete instances. -/
def exec0 : Execution :=
  { id := 0, pipelineID := 0, repoID := 0, trigger := "", number := 0, parent := 0,
    status := "", error := "", event := "", action := "", link := "", timestamp := 0,
    title := "", message := "", before := "", after := "", ref := "", sourceRepo := "",
    source := "", target := "", author := "", authorName := "", authorEmail := "",
    authorAvatar := "", sender := "", params := "", cron := "", deploy := "",
    deployID := 0, debug := false, started := 0, finished := 0, created := 0,
    updated := 0, version := 0 }

/-- The empty table. -/
def emptyDB : DB := { rows := [], nextId := 1 }

deriving instance DecidableEq for Except

/-- A table holding the single row `{exec0 with id := 1}` (version 0). -/
def dbOne : DB := { rows := [{ exec0 with id := 1 }], nextId := 2 }

/-- The caller's handle on the row of `dbOne`: same identity, version 0,
equal to the currently persisted version. -/
def eCurrent : Execution := { exec0 with id := 1 }

/-- A table whose single row has version 5. -/
def dbStale : DB := { rows := [{ exec0 with id := 1, version := 5 }], nextId := 2 }

/-- A caller's handle whose version 3 differs from the persisted version 5. -/
def eStale : Execution := { exec0 with id := 1, version := 3 }

/-- 25 rows of pipeline 7, numbered 1..25, in insertion order. -/
def rows25 : List Execution :=
  (List.range 25).map fun j =>
    { exec0 with id := (j : Int) + 1, number := (j : Int) + 1, pipelineID := 7 }

/-- A table holding the 25 rows of `rows25`. -/
def db25 : DB := { rows := rows25, nextId := 26 }

/-- An update operation that always commits without touching the state,
used to exercise the generic retry loop. -/
def updAlwaysOk : Nat → DB → Execution → Except StoreErr Unit × DB × Execution :=
  fun _ db e => (.ok (), db, e)

/-- An update operation that always reports a version conflict,
used to exercise the generic retry loop. -/
def updAlwaysConflict : Nat → DB → Execution → Except StoreErr Unit × DB × Execution :=
  fun _ db e => (.error .versionConflict, db, e)

/-- A find operation that always succeeds with `exec0`. -/
def findAlwaysOk : DB → Int → Int → Except StoreErr Execution :=
  fun _ _ _ => .ok exec0

/-- The identity mutation function. -/
def mutId : Execution → Except StoreErr Execution := fun e => .ok e

/-- A mutation function that always fails with the caller error 3. -/
def mutFail : Execution → Except StoreErr Execution := fun _ => .error (.user 3)

/-- A backend that accepts the statement and reports one affected row,
used to exercise `updateGo`'s success path. -/
def backendOneRow : DB → Execution → Except String (DB × Nat) :=
  fun db _ => .ok (db, 1)

/-! ## Helper lemmas -/

/-- The backend rejects the SET clause of `executionUpdateStmt`: the slot
before its first comma is blank. -/
theorem setClause_rejected : sqlSetClauseAccepted executionUpdateSetSlots = false := rfl

/-- Every call to `Update` fails with the wrapped SQL error and leaves both
the table and the caller's record untouched: the backend rejects the
malformed statement before anything is written. -/
theorem update_always_fails (now : Int) (db : DB) (e : Execution) :
    Update now db e = (.error (.internalSQL updateStmtRejectMsg), db, e) := rfl

/-- The concrete retry loop (over the real `Update` and `Find`) never changes
the table state: the first attempt's `Update` fails with a non-conflict error,
so the loop aborts at once, and with zero fuel the state is returned as is. -/
theorem updateOptLockGo_db_unchanged (clock : Nat → Int)
    (mutateFn : Execution → Except StoreErr Execution) (k fuel : Nat)
    (db : DB) (e : Execution) :
    (updateOptLockGo (fun k => Update (clock k)) Find mutateFn k fuel db e).2 = db := by
  cases fuel with
  | zero => rfl
  | succ n =>
    rw [updateOptLockGo]
    cases h : mutateFn e with
    | error err => rfl
    | ok dup =>
      dsimp only
      rw [update_always_fails]
      dsimp only
      rw [if_neg (by decide :
        ¬ (StoreErr.internalSQL updateStmtRejectMsg = StoreErr.versionConflict))]

/-! ## C1 / C2: `Update` against the malformed statement -/

/-- C1: the claim says an `Update` whose `record.version` equals the currently
persisted version succeeds, incrementing the version by 1 and stamping
`updatedAt`.  The code cannot do this: the statement `executionUpdateStmt`
reads `SET ,execution_status = ...` — the comma directly after `SET` makes it
invalid SQL, so `db.ExecContext` rejects it and `Update` returns the wrapped
SQL error.  Here `dbOne` persists exactly the caller's record `eCurrent`
(version 0 = persisted version 0), yet `Update` fails and changes nothing —
neither the table nor the caller's record. -/
theorem update_with_matching_version_rejected :
    Find dbOne eCurrent.pipelineID eCurrent.number = .ok { exec0 with id := 1 } ∧
    ({ exec0 with id := 1 } : Execution).version = eCurrent.version ∧
    Update 5 dbOne eCurrent = (.error (.internalSQL updateStmtRejectMsg), dbOne, eCurrent) ∧
    (Update 5 dbOne eCurrent).1 ≠ .ok () ∧
    sqlSetClauseAccepted executionUpdateSetSlots = false := by decide

/-- C2: the claim says an `Update` whose `record.version` differs from the
persisted version fails with `VersionConflictError` and leaves the record
unchanged.  The persisted row of `dbStale` has version 5 and the caller's
`eStale` has version 3, so the claim demands `ErrVersionConflict`; the code
instead fails earlier, with the wrapped SQL error for the malformed statement
(the `count == 0` path returning `ErrVersionConflict` is unreachable).  The
"no partial write" half does hold: the table is returned unchanged. -/
theorem update_with_stale_version_not_conflict :
    (findRowById dbStale 1).map Execution.version = some 5 ∧
    eStale.version = 3 ∧
    Update 9 dbStale eStale = (.error (.internalSQL updateStmtRejectMsg), dbStale, eStale) ∧
    (Update 9 dbStale eStale).1 ≠ .error .versionConflict := by decide

/-! ## C3: the retry loop -/

/-- C3: `UpdateOptLock` behaves as the retry loop, shown for the loop body
`updateOptLockGo` over arbitrary store operations `update`/`find` (the Go
method's body reaches the store only through `s.Update` and `s.Find`, here
abstracted; `UpdateOptLock` is the instance at the concrete `Update`/`Find`).
In order of the conjuncts: (1) if the mutation of the current snapshot
succeeds and the commit attempt succeeds, the loop returns the committed copy
handed back by `update` together with its state; (2) if the commit attempt
fails with anything other than `ErrVersionConflict`, the loop aborts and
returns exactly that error; (3) on `ErrVersionConflict` it re-reads the latest
persisted state via `find` on the original identity and restarts the mutation
from scratch on the fresh snapshot; (4) if that re-read fails, the loop aborts
with the re-read's error; (5) the loop has no retry bound: if every commit
attempt conflicts (and mutation and re-read always succeed), the loop is
still running after any number `fuel` of iterations. -/
theorem updateOptLock_retry_loop
    (update : Nat → DB → Execution → Except StoreErr Unit × DB × Execution)
    (find : DB → Int → Int → Except StoreErr Execution)
    (mutateFn : Execution → Except StoreErr Execution) :
    (∀ k fuel db e m db1 m', mutateFn e = .ok m → update k db m = (.ok (), db1, m') →
      updateOptLockGo update find mutateFn k (fuel + 1) db e = (some (.ok m'), db1)) ∧
    (∀ k fuel db e m db1 m' err, mutateFn e = .ok m →
      update k db m = (.error err, db1, m') → err ≠ .versionConflict →
      updateOptLockGo update find mutateFn k (fuel + 1) db e = (some (.error err), db1)) ∧
    (∀ k fuel db e m db1 m' e2, mutateFn e = .ok m →
      update k db m = (.error .versionConflict, db1, m') →
      find db1 e.pipelineID e.number = .ok e2 →
      updateOptLockGo update find mutateFn k (fuel + 1) db e =
        updateOptLockGo update find mutateFn (k + 1) fuel db1 e2) ∧
    (∀ k fuel db e m db1 m' ferr, mutateFn e = .ok m →
      update k db m = (.error .versionConflict, db1, m') →
      find db1 e.pipelineID e.number = .error ferr →
      updateOptLockGo update find mutateFn k (fuel + 1) db e = (some (.error ferr), db1)) ∧
    ((∀ k db' m, (update k db' m).1 = .error .versionConflict) →
      (∀ x, ∃ y, mutateFn x = .ok y) →
      (∀ d p q, ∃ z, find d p q = .ok z) →
      ∀ fuel k db e, (updateOptLockGo update find mutateFn k fuel db e).1 = none) := by
  refine ⟨?_, ?_, ?_, ?_, ?_⟩
  · intro k fuel db e m db1 m' h1 h2
    rw [updateOptLockGo, h1]
    dsimp only
    rw [h2]
  · intro k fuel db e m db1 m' err h1 h2 herr
    rw [updateOptLockGo, h1]
    dsimp only
    rw [h2]
    dsimp only
    rw [if_neg herr]
  · intro k fuel db e m db1 m' e2 h1 h2 h3
    rw [updateOptLockGo, h1]
    dsimp only
    rw [h2]
    dsimp only
    rw [if_pos rfl, h3]
  · intro k fuel db e m db1 m' ferr h1 h2 h3
    rw [updateOptLockGo, h1]
    dsimp only
    rw [h2]
    dsimp only
    rw [if_pos rfl, h3]
  · intro hconf hmut hfind fuel
    induction fuel with
    | zero => intro k db e; rfl
    | succ n ih =>
      intro k db e
      obtain ⟨m, hm⟩ := hmut e
      rw [updateOptLockGo, hm]
      dsimp only
      cases hu : update k db m with
      | mk res rest =>
        cases rest with
        | mk db1 m' =>
          have hres := hconf k db m
          rw [hu] at hres
          dsimp only at hres
          subst hres
          dsimp only
          rw [if_pos rfl]
          obtain ⟨z, hz⟩ := hfind db1 e.pipelineID e.number
          rw [hz]
          exact ih (k + 1) db1 z

/-- Witness for C3: the loop commits on the first attempt with an
always-committing `update` (conjunct 1 at fuel 0+1), and with an
always-conflicting `update` it is still running after 5 iterations
(conjunct 5). -/
theorem updateOptLock_retry_loop_witness :
    (mutId exec0 = .ok exec0) ∧
    (updAlwaysOk 0 emptyDB exec0 = (.ok (), emptyDB, exec0)) ∧
    updateOptLockGo updAlwaysOk findAlwaysOk mutId 0 (0 + 1) emptyDB exec0 =
      (some (.ok exec0), emptyDB) ∧
    (updateOptLockGo updAlwaysConflict findAlwaysOk mutId 0 5 emptyDB exec0).1 = none := by
  refine ⟨rfl, rfl, ?_, ?_⟩
  · exact (updateOptLock_retry_loop updAlwaysOk findAlwaysOk mutId).1
      0 0 emptyDB exec0 exec0 emptyDB exec0 rfl rfl
  · exact (updateOptLock_retry_loop updAlwaysConflict findAlwaysOk mutId).2.2.2.2
      (fun k db m => rfl) (fun x => ⟨x, rfl⟩) (fun d p q => ⟨exec0, rfl⟩) 5 0 emptyDB exec0

/-! ## C4: mutation errors abort the loop -/

/-- C4: if the caller-supplied mutation function fails on the snapshot of an
attempt, the loop returns exactly that error at once.  The first conjunct is
generic: the result is the same for every `update` and `find` whatsoever and
for every remaining fuel, so no commit attempt is consulted, nothing is
retried, and the state comes back unchanged.  The second conjunct is the same
statement for the concrete `UpdateOptLock`. -/
theorem updateOptLock_mutation_error_aborts :
    (∀ (update : Nat → DB → Execution → Except StoreErr Unit × DB × Execution)
       (find : DB → Int → Int → Except StoreErr Execution)
       (mutateFn : Execution → Except StoreErr Execution) (k fuel : Nat)
       (db : DB) (e : Execution) (err : StoreErr),
        mutateFn e = .error err →
        updateOptLockGo update find mutateFn k (fuel + 1) db e = (some (.error err), db)) ∧
    (∀ (clock : Nat → Int) (fuel : Nat) (db : DB) (e : Execution) (err : StoreErr)
       (mutateFn : Execution → Except StoreErr Execution),
        mutateFn e = .error err →
        UpdateOptLock clock (fuel + 1) db e mutateFn = (some (.error err), db)) := by
  constructor
  · intro update find mutateFn k fuel db e err h
    rw [updateOptLockGo, h]
  · intro clock fuel db e err mutateFn h
    show updateOptLockGo _ _ _ 0 (fuel + 1) db e = _
    rw [updateOptLockGo, h]

/-- Witness for C4: a mutation function failing with the caller error 3 makes
`UpdateOptLock` return exactly that error with the table unchanged. -/
theorem updateOptLock_mutation_error_aborts_witness :
    (mutFail exec0 = .error (.user 3)) ∧
    UpdateOptLock (fun _ => 0) (3 + 1) emptyDB exec0 mutFail =
      (some (.error (.user 3)), emptyDB) := by
  refine ⟨rfl, ?_⟩
  exact updateOptLock_mutation_error_aborts.2 (fun _ => 0) 3 emptyDB exec0 (.user 3) mutFail rfl

/-! ## C6: Delete -/

/-- C6 counterexample: the claim says `Delete` on a nonexistent identity
returns `NotFoundError`.  The code discards the affected-row count of the
DELETE statement and checks only for an execution error, so deleting the
nonexistent identity (1,2) from the empty table succeeds. -/
theorem delete_missing_identity_succeeds :
    Find emptyDB 1 2 = .error .resourceNotFound ∧
    (Delete emptyDB 1 2).1 = .ok () ∧
    (Delete emptyDB 1 2).1 ≠ .error .resourceNotFound := by decide

/-- C6 amended: `Delete` always succeeds, whether or not the identity exists
(it never returns `NotFoundError`); afterwards `Find` on the same identity
returns `NotFoundError`, since every matching row was removed. -/
theorem delete_unconditional_then_find_notFound (db : DB) (p n : Int) :
    (Delete db p n).1 = .ok () ∧ Find (Delete db p n).2 p n = .error .resourceNotFound := by
  refine ⟨rfl, ?_⟩
  have h : (Delete db p n).2.rows.find? (execMatchesKey p n) = none := by
    rw [List.find?_eq_none]
    intro x hx
    have hx2 := (List.mem_filter.mp hx).2
    rw [Bool.not_eq_true'] at hx2
    simp [hx2]
  simp [Find, h]

/-! ## C7: Create / Find round-trip -/

/-- C7 counterexample: the claim says identity, `version` and `updatedAt` are
store-assigned fields "which Create itself assigns".  `Create` binds all 34
data columns from the caller's record as given and assigns only the generated
`execution_id`: a caller-supplied version 42 / updatedAt 99 is persisted
verbatim (and 0/0 for another caller), so no store-chosen value exists for
either field. -/
theorem create_keeps_caller_version_updatedAt :
    (Create emptyDB { exec0 with version := 42, updated := 99 }).2.2.version = 42 ∧
    (Create emptyDB { exec0 with version := 42, updated := 99 }).2.2.updated = 99 ∧
    Find (Create emptyDB { exec0 with version := 42, updated := 99 }).2.1 0 0 =
      .ok { exec0 with id := 1, version := 42, updated := 99 } ∧
    (Create emptyDB exec0).2.2.version = 0 ∧
    (42 : Int) ≠ 0 := by decide

/-- C7 amended: if no row with the record's identity (pipeline id, number)
exists yet, a successful `Create(r)` followed by `Find` on that identity
returns a record equal to `r` in every field except the store-generated
`execution_id`; in particular `version` and `updatedAt` are persisted exactly
as supplied by the caller.  The generated id is also written back onto the
caller's record. -/
theorem create_find_roundtrip (db : DB) (e : Execution)
    (h : db.rows.find? (execMatchesKey e.pipelineID e.number) = none) :
    (Create db e).1 = .ok () ∧
    (Create db e).2.2 = { e with id := db.nextId } ∧
    Find (Create db e).2.1 e.pipelineID e.number = .ok { e with id := db.nextId } := by
  refine ⟨rfl, rfl, ?_⟩
  unfold Find Create
  dsimp only
  rw [List.find?_append, h, Option.none_or]
  simp [execMatchesKey]

/-- Witness for C7: creating `exec0` in the empty table and finding it by its
identity (0,0) returns `exec0` with the generated id 1. -/
theorem create_find_roundtrip_witness :
    (emptyDB.rows.find? (execMatchesKey exec0.pipelineID exec0.number) = none) ∧
    Find (Create emptyDB exec0).2.1 exec0.pipelineID exec0.number =
      .ok { exec0 with id := 1 } := by
  refine ⟨rfl, ?_⟩
  exact (create_find_roundtrip emptyDB exec0 rfl).2.2

/-! ## C10: write-back discipline of Update -/

/-- C10: `Update` works on a local copy and touches the caller's record only
after a successful commit, and then only its `version` and `updated` fields.
Conjunct 1: for every backend, whenever `updateGo` returns an error the
caller's record comes back unchanged in every field.  Conjunct 2: whenever it
succeeds, the record comes back changed exactly in `version` (old + 1) and
`updated` (the commit time).  Conjunct 3: the concrete `Update` never changes
the caller's record (today every call errors).  Conjunct 4: on success the
loop returns the freshly committed copy handed back by `update` for the
mutated duplicate — the caller's original record is not the value returned. -/
theorem update_writeback_discipline :
    (∀ exec now db e err db' e', updateGo exec now db e = (.error err, db', e') → e' = e) ∧
    (∀ exec now db e db' e', updateGo exec now db e = (.ok (), db', e') →
        e' = { e with version := e.version + 1, updated := now }) ∧
    (∀ now db e, (Update now db e).2.2 = e) ∧
    (∀ (update : Nat → DB → Execution → Except StoreErr Unit × DB × Execution)
       (find : DB → Int → Int → Except StoreErr Execution)
       (mutateFn : Execution → Except StoreErr Execution) k fuel db e m db1 m',
        mutateFn e = .ok m → update k db m = (.ok (), db1, m') →
        (updateOptLockGo update find mutateFn k (fuel + 1) db e).1 = some (.ok m')) := by
  refine ⟨?_, ?_, ?_, ?_⟩
  · intro exec now db e err db' e' h
    simp only [updateGo] at h
    cases hx : exec db { e with version := e.version + 1, updated := now } with
    | error msg =>
      rw [hx] at h
      dsimp only at h
      simp only [Prod.mk.injEq] at h
      exact h.2.2.symm
    | ok p =>
      cases p with
      | mk db0 count =>
        rw [hx] at h
        dsimp only at h
        split at h
        · simp only [Prod.mk.injEq] at h
          exact h.2.2.symm
        · simp only [Prod.mk.injEq] at h
          exact absurd h.1 (by simp)
  · intro exec now db e db' e' h
    simp only [updateGo] at h
    cases hx : exec db { e with version := e.version + 1, updated := now } with
    | error msg =>
      rw [hx] at h
      dsimp only at h
      simp only [Prod.mk.injEq] at h
      exact absurd h.1 (by simp)
    | ok p =>
      cases p with
      | mk db0 count =>
        rw [hx] at h
        dsimp only at h
        split at h
        · simp only [Prod.mk.injEq] at h
          exact absurd h.1 (by simp)
        · simp only [Prod.mk.injEq] at h
          exact h.2.2.symm
  · intro now db e
    rfl
  · intro update find mutateFn k fuel db e m db1 m' h1 h2
    rw [updateOptLockGo, h1]
    dsimp only
    rw [h2]

/-- Witness for C10: with a backend that reports one affected row, the
caller's record comes back changed exactly in `version` and `updated`
(conjunct 2); the concrete `Update` leaves `eCurrent` unchanged
(conjunct 3). -/
theorem update_writeback_discipline_witness :
    (updateGo backendOneRow 5 emptyDB exec0 =
      (.ok (), emptyDB, { exec0 with version := 1, updated := 5 })) ∧
    ({ exec0 with version := 1, updated := 5 } : Execution) =
      { exec0 with version := exec0.version + 1, updated := 5 } ∧
    (Update 7 dbOne eCurrent).2.2 = eCurrent := by
  refine ⟨by decide, ?_, ?_⟩
  · exact update_writeback_discipline.2.1 backendOneRow 5 emptyDB exec0 emptyDB
      { exec0 with version := 1, updated := 5 } (by decide)
  · exact update_writeback_discipline.2.2.1 7 dbOne eCurrent

/-! ## C5: the persisted version counter -/

/-- A row located by its generated key lies in the table and carries that key. -/
theorem findRowById_mem (db : DB) (i : Int) (r : Execution)
    (h : findRowById db i = some r) : r ∈ db.rows ∧ r.id = i := by
  refine ⟨List.mem_of_find?_eq_some h, ?_⟩
  have hp := List.find?_some h
  simpa using hp

/-- `Update` (always failing on the malformed statement) leaves the state as is. -/
theorem applyOp_update_eq (db : DB) (now : Int) (e : Execution) :
    applyOp db (.updateOp now e) = db := by
  show (Update now db e).2.1 = db
  rw [update_always_fails]

/-- `UpdateOptLock` (aborting on the first failed `Update`) leaves the state as is. -/
theorem applyOp_optlock_eq (db : DB) (clock : Nat → Int) (fuel : Nat) (e : Execution)
    (mutateFn : Execution → Except StoreErr Execution) :
    applyOp db (.updateOptLockOp clock fuel e mutateFn) = db := by
  show (UpdateOptLock clock fuel db e mutateFn).2 = db
  exact updateOptLockGo_db_unchanged clock mutateFn 0 fuel db e

/-- The id generator never goes backwards. -/
theorem nextId_le_applyOp (db : DB) (op : StoreOp) : db.nextId ≤ (applyOp db op).nextId := by
  cases op with
  | createOp e =>
    show db.nextId ≤ db.nextId + 1
    omega
  | updateOp now e => rw [applyOp_update_eq]
  | updateOptLockOp clock fuel e mutateFn => rw [applyOp_optlock_eq]
  | deleteOp p n => exact le_refl _

/-- Every store operation preserves well-formedness of the table state. -/
theorem wf_applyOp (db : DB) (op : StoreOp) (h : wfDB db) : wfDB (applyOp db op) := by
  obtain ⟨hnd, hlt⟩ := h
  cases op with
  | updateOp now e => rw [applyOp_update_eq]; exact ⟨hnd, hlt⟩
  | updateOptLockOp clock fuel e mutateFn => rw [applyOp_optlock_eq]; exact ⟨hnd, hlt⟩
  | createOp e =>
    constructor
    · show ((db.rows ++ [{ e with id := db.nextId }]).map Execution.id).Nodup
      rw [List.map_append, List.nodup_append]
      refine ⟨hnd, List.nodup_singleton _, ?_⟩
      intro a ha hb
      obtain ⟨r, hr, hrid⟩ := List.mem_map.mp ha
      have ha2 : a = db.nextId := by simpa using hb
      have := hlt r hr
      omega
    · intro r hr
      show r.id < db.nextId + 1
      rcases List.mem_append.mp hr with h1 | h2
      · have := hlt r h1; omega
      · have : r = { e with id := db.nextId } := List.mem_singleton.mp h2
        rw [this]
        show db.nextId < db.nextId + 1
        omega
  | deleteOp p n =>
    constructor
    · exact ((List.filter_sublist db.rows).map Execution.id).nodup hnd
    · intro r hr
      exact hlt r (List.mem_filter.mp hr).1

/-- A row present before a `Create` is still found unchanged afterwards:
the insert only appends a fresh row at the end. -/
theorem findRowById_create_some (db : DB) (i : Int) (r : Execution) (e : Execution)
    (h : findRowById db i = some r) :
    findRowById (applyOp db (.createOp e)) i = some r := by
  show ((db.rows ++ [{ e with id := db.nextId }]).find? fun r : Execution => r.id == i) = some r
  rw [List.find?_append]
  unfold findRowById at h
  rw [h, Option.or_some]

/-- A key below the generator that is absent stays absent across a `Create`:
the inserted row carries the fresh key `nextId`. -/
theorem findRowById_create_none (db : DB) (i : Int) (e : Execution)
    (hi : i < db.nextId) (h : findRowById db i = none) :
    findRowById (applyOp db (.createOp e)) i = none := by
  show ((db.rows ++ [{ e with id := db.nextId }]).find? fun r : Execution => r.id == i) = none
  rw [List.find?_append]
  unfold findRowById at h
  rw [h, Option.none_or, List.find?_eq_none]
  intro x hx
  have hx2 : x = { e with id := db.nextId } := List.mem_singleton.mp hx
  rw [hx2]
  show ¬ ((db.nextId : Int) == i) = true
  simp
  omega

/-- An absent key stays absent across a `Delete`. -/
theorem findRowById_delete_none (db : DB) (i p n : Int)
    (h : findRowById db i = none) :
    findRowById (applyOp db (.deleteOp p n)) i = none := by
  show ((db.rows.filter fun r => !execMatchesKey p n r).find? fun r : Execution => r.id == i) = none
  unfold findRowById at h
  rw [List.find?_eq_none] at h ⊢
  intro x hx
  exact h x (List.mem_filter.mp hx).1

/-- Across a `Delete`, a row found by key either survives unchanged or is gone:
with pairwise distinct keys no other row can take its place. -/
theorem findRowById_delete_cases (db : DB) (i : Int) (r : Execution) (p n : Int)
    (hwf : wfDB db) (h : findRowById db i = some r) :
    findRowById (applyOp db (.deleteOp p n)) i = some r ∨
    findRowById (applyOp db (.deleteOp p n)) i = none := by
  cases h' : findRowById (applyOp db (.deleteOp p n)) i with
  | none => exact .inr rfl
  | some r' =>
    left
    obtain ⟨hr'mem, hr'id⟩ := findRowById_mem _ _ _ h'
    obtain ⟨hrmem, hrid⟩ := findRowById_mem _ _ _ h
    have hr'db : r' ∈ db.rows := by
      have : r' ∈ db.rows.filter fun r => !execMatchesKey p n r := hr'mem
      exact (List.mem_filter.mp this).1
    have heq : r' = r :=
      List.inj_on_of_nodup_map hwf.1 hr'db hrmem (by rw [hr'id, hrid])
    rw [heq]

/-- One store operation either keeps a row (unchanged) or removes it. -/
theorem findRowById_stable_step (db : DB) (op : StoreOp) (i : Int) (r : Execution)
    (hwf : wfDB db) (hi : i < db.nextId)
    (h : findRowById db i = some r ∨ findRowById db i = none) :
    findRowById (applyOp db op) i = some r ∨ findRowById (applyOp db op) i = none := by
  cases op with
  | updateOp now e => rwa [applyOp_update_eq]
  | updateOptLockOp clock fuel e mutateFn => rwa [applyOp_optlock_eq]
  | createOp e =>
    rcases h with h | h
    · exact .inl (findRowById_create_some _ _ _ _ h)
    · exact .inr (findRowById_create_none _ _ _ hi h)
  | deleteOp p n =>
    rcases h with h | h
    · exact findRowById_delete_cases _ _ _ _ _ hwf h
    · exact .inr (findRowById_delete_none _ _ _ _ h)

/-- Over any sequence of store operations, a row keyed below the generator is
either still present unchanged or has been deleted. -/
theorem findRowById_stable_ops (ops : List StoreOp) :
    ∀ (db : DB) (i : Int) (r : Execution), wfDB db → i < db.nextId →
    (findRowById db i = some r ∨ findRowById db i = none) →
    (findRowById (applyOps db ops) i = some r ∨ findRowById (applyOps db ops) i = none) := by
  induction ops with
  | nil => intro db i r _ _ h; exact h
  | cons op rest ih =>
    intro db i r hwf hi h
    show (findRowById (applyOps (applyOp db op) rest) i = some r ∨
          findRowById (applyOps (applyOp db op) rest) i = none)
    exact ih (applyOp db op) i r (wf_applyOp db op hwf)
      (lt_of_lt_of_le hi (nextId_le_applyOp db op))
      (findRowById_stable_step db op i r hwf hi h)

/-- If a row with a given key exists before and after one store operation,
it is the same row. -/
theorem findRowById_step_eq (db : DB) (op : StoreOp) (i : Int) (r r' : Execution)
    (hwf : wfDB db) (h : findRowById db i = some r)
    (h' : findRowById (applyOp db op) i = some r') : r' = r := by
  cases op with
  | updateOp now e =>
    rw [applyOp_update_eq, h] at h'
    exact (Option.some.injEq _ _ ▸ h').symm
  | updateOptLockOp clock fuel e mutateFn =>
    rw [applyOp_optlock_eq, h] at h'
    exact (Option.some.injEq _ _ ▸ h').symm
  | createOp e =>
    rw [findRowById_create_some _ _ _ e h] at h'
    exact (Option.some.injEq _ _ ▸ h').symm
  | deleteOp p n =>
    rcases findRowById_delete_cases db i r p n hwf h with hd | hd <;> rw [hd] at h'
    · exact (Option.some.injEq _ _ ▸ h').symm
    · cases h'

/-- C5: the persisted version counter is monotone. Conjunct 1: over any
sequence of store operations on a well-formed state, a record's persisted
version never decreases.  Conjunct 2: across a single operation the version
is unchanged unless the operation is an `Update` that committed, in which case
it grows by exactly 1 (in the current code no `Update` commits, so the left
disjunct always holds — the version never changes at all).  Conjunct 3: the
increment is the store's, not the caller's: by the statement's own WHERE
predicate, any row it rewrites gets version `persisted + 1` — the caller's
record enters only through the predicate, which forces
`persisted = bound.version - 1`, mirroring `execution.Version++` over the
source lines 193–196. -/
theorem persisted_version_monotone :
    (∀ (db : DB) (ops : List StoreOp) (i : Int) (r r' : Execution),
        wfDB db → findRowById db i = some r → findRowById (applyOps db ops) i = some r' →
        r.version ≤ r'.version) ∧
    (∀ (db : DB) (op : StoreOp) (i : Int) (r r' : Execution),
        wfDB db → findRowById db i = some r → findRowById (applyOp db op) i = some r' →
        r'.version = r.version ∨
          ∃ now e, op = StoreOp.updateOp now e ∧ (Update now db e).1 = .ok () ∧
            r'.version = r.version + 1) ∧
    (∀ bound row, executionUpdateWhere bound row = true →
        (applyExecutionUpdateSet bound row).version = row.version + 1) := by
  refine ⟨?_, ?_, ?_⟩
  · intro db ops i r r' hwf h h'
    have hi : i < db.nextId := by
      obtain ⟨hm, hid⟩ := findRowById_mem db i r h
      have h2 := hwf.2 r hm
      omega
    rcases findRowById_stable_ops ops db i r hwf hi (.inl h) with hs | hs
    · rw [hs] at h'
      have : r = r' := Option.some.injEq _ _ ▸ h'
      rw [this]
    · rw [hs] at h'; cases h'
  · intro db op i r r' hwf h h'
    exact .inl (by rw [findRowById_step_eq db op i r r' hwf h h'])
  · intro bound row hw
    unfold executionUpdateWhere at hw
    rw [Bool.and_eq_true, beq_iff_eq, beq_iff_eq] at hw
    show bound.version = row.version + 1
    omega

/-- Witness for C5: the row of id 1 keeps its version 0 across a delete of a
different identity followed by a create (conjunct 1), and a CAS-matching row
of version 3 is rewritten to version 4 = 3 + 1 (conjunct 3). -/
theorem persisted_version_monotone_witness :
    wfDB dbOne ∧
    findRowById dbOne 1 = some { exec0 with id := 1 } ∧
    findRowById (applyOps dbOne [StoreOp.deleteOp 5 5, StoreOp.createOp exec0]) 1 =
      some { exec0 with id := 1 } ∧
    ({ exec0 with id := 1 } : Execution).version ≤ ({ exec0 with id := 1 } : Execution).version ∧
    executionUpdateWhere { exec0 with id := 1, version := 4 }
      { exec0 with id := 1, version := 3 } = true ∧
    (applyExecutionUpdateSet { exec0 with id := 1, version := 4 }
        { exec0 with id := 1, version := 3 }).version =
      ({ exec0 with id := 1, version := 3 } : Execution).version + 1 := by
  refine ⟨by decide, by decide, by decide, ?_, by decide, ?_⟩
  · exact persisted_version_monotone.1 dbOne [StoreOp.deleteOp 5 5, StoreOp.createOp exec0]
      1 _ _ (by decide) (by decide) (by decide)
  · exact persisted_version_monotone.2.2 _ _ (by decide)

/-! ## C8: List / Count pagination -/

/-- C8: with page ≥ 1 and size ≥ 1, `List` returns the matching records of
the store-defined order starting at offset `(page-1)*size`, at most `size` of
them — element `i` of the page is element `(page-1)*size + i` of the full
match list — while `Count` on the same filter returns the total number of
matching records, ignoring pagination. -/
theorem list_count_pagination (db : DB) (pipelineID page size : Int)
    (hpage : 1 ≤ page) (hsize : 1 ≤ size) :
    ∃ pageList,
      ListExec db pipelineID page size = .ok pageList ∧
      pageList.length ≤ size.toNat ∧
      (∀ i, i < size.toNat →
        pageList[i]? =
          (db.rows.filter fun r => r.pipelineID == pipelineID)[((page - 1) * size).toNat + i]?) ∧
      Count db pipelineID =
        .ok ((db.rows.filter fun r => r.pipelineID == pipelineID).length : Nat) := by
  refine ⟨_, rfl, List.length_take_le _ _, ?_, ?_⟩
  · intro i hi
    show ((((db.rows.filter fun r => r.pipelineID == pipelineID).drop
        (((page - 1) * size).toNat))).take size.toNat)[i]? = _
    rw [List.getElem?_take_of_lt hi, List.getElem?_drop]
  · simp [Count, List.countP_eq_length_filter]

/-- Witness for C8, the spec's scenario: 25 matching records, page 2 of
size 10 returns records 11–20 of the store order (its first element is the
record at offset 10), and `Count` returns 25. -/
theorem list_count_pagination_witness :
    (1 : Int) ≤ 2 ∧ (1 : Int) ≤ 10 ∧
    ListExec db25 7 2 10 = .ok ((rows25.drop 10).take 10) ∧
    ((rows25.drop 10).take 10).length = 10 ∧
    ((rows25.drop 10).take 10)[0]? = rows25[10]? ∧
    Count db25 7 = .ok 25 := by
  refine ⟨by decide, by decide, by decide, by decide, ?_, ?_⟩
  · obtain ⟨l, h1, _, h3, _⟩ := list_count_pagination db25 7 2 10 (by decide) (by decide)
    have hl : (.ok ((rows25.drop 10).take 10) : Except StoreErr (List Execution)) = .ok l := by
      rw [← h1]; decide
    have hl2 : l = (rows25.drop 10).take 10 := by
      injection hl with h
      exact h.symm
    have h0 := h3 0 (by decide)
    rw [hl2] at h0
    rw [h0]
    decide
  · obtain ⟨l, _, _, _, h4⟩ := list_count_pagination db25 7 2 10 (by decide) (by decide)
    rw [h4]
    decide

/-! ## C9: the frame of the update statement -/

/-- C9: the update statement touches only the seven columns status, error,
event, started, finished, updated, version.  Conjunct 1: the assignment
targets appearing in its SET clause are exactly those columns.  Conjuncts
2–30: the statement's row action leaves every one of the other 28 persisted
columns (and the generated id) unchanged.  Final conjuncts: the concrete
`Update` and `UpdateOptLock` leave the table state entirely unchanged (the
malformed statement persists nothing at all), so in particular a mutation
function's change to any other payload field — title, message, … — is never
persisted by either. -/
theorem update_stmt_frame (bound row : Execution) (now : Int) (db : DB) (e : Execution)
    (clock : Nat → Int) (fuel : Nat) (mutateFn : Execution → Except StoreErr Execution) :
    executionUpdateSetSlots.filterMap (fun s => s) =
      [UpdateSetColumn.status, UpdateSetColumn.error, UpdateSetColumn.event,
       UpdateSetColumn.started, UpdateSetColumn.finished, UpdateSetColumn.updated,
       UpdateSetColumn.version] ∧
    (applyExecutionUpdateSet bound row).id = row.id ∧
    (applyExecutionUpdateSet bound row).pipelineID = row.pipelineID ∧
    (applyExecutionUpdateSet bound row).repoID = row.repoID ∧
    (applyExecutionUpdateSet bound row).trigger = row.trigger ∧
    (applyExecutionUpdateSet bound row).number = row.number ∧
    (applyExecutionUpdateSet bound row).parent = row.parent ∧
    (applyExecutionUpdateSet bound row).action = row.action ∧
    (applyExecutionUpdateSet bound row).link = row.link ∧
    (applyExecutionUpdateSet bound row).timestamp = row.timestamp ∧
    (applyExecutionUpdateSet bound row).title = row.title ∧
    (applyExecutionUpdateSet bound row).message = row.message ∧
    (applyExecutionUpdateSet bound row).before = row.before ∧
    (applyExecutionUpdateSet bound row).after = row.after ∧
    (applyExecutionUpdateSet bound row).ref = row.ref ∧
    (applyExecutionUpdateSet bound row).sourceRepo = row.sourceRepo ∧
    (applyExecutionUpdateSet bound row).source = row.source ∧
    (applyExecutionUpdateSet bound row).target = row.target ∧
    (applyExecutionUpdateSet bound row).author = row.author ∧
    (applyExecutionUpdateSet bound row).authorName = row.authorName ∧
    (applyExecutionUpdateSet bound row).authorEmail = row.authorEmail ∧
    (applyExecutionUpdateSet bound row).authorAvatar = row.authorAvatar ∧
    (applyExecutionUpdateSet bound row).sender = row.sender ∧
    (applyExecutionUpdateSet bound row).params = row.params ∧
    (applyExecutionUpdateSet bound row).cron = row.cron ∧
    (applyExecutionUpdateSet bound row).deploy = row.deploy ∧
    (applyExecutionUpdateSet bound row).deployID = row.deployID ∧
    (applyExecutionUpdateSet bound row).debug = row.debug ∧
    (applyExecutionUpdateSet bound row).created = row.created ∧
    (Update now db e).2.1 = db ∧
    (UpdateOptLock clock fuel db e mutateFn).2 = db := by
  refine ⟨rfl, rfl, rfl, rfl, rfl, rfl, rfl, rfl, rfl, rfl, rfl, rfl, rfl, rfl, rfl, rfl,
    rfl, rfl, rfl, rfl, rfl, rfl, rfl, rfl, rfl, rfl, rfl, rfl, rfl, rfl, ?_⟩
  exact updateOptLockGo_db_unchanged clock mutateFn 0 fuel db e
